import Mathlib

/-!
Verification of the join-logger bot's reconciliation, scheduling and
persistence core.  The definitions below are a shallow embedding of the
source script: guild member sets are association lists of strings, the
notification scheduler state carries the cooldown map, the pending buffer
and the single debounce deadline, persistence is modelled over a small
JSON value type, and the debounced save path is a three-event machine.
-/

namespace JoinLogger

/-- cfg.notifyDebounceMs: batch sends that occur within this window (5s). -/
def notifyDebounceMs : Int := 5000

/-- cfg.notifyCooldownMs: do not notify about the same user within 10 minutes. -/
def notifyCooldownMs : Int := 600000

/-- A guild member as this core sees it: an identifier plus an optional
join timestamp in milliseconds (discord.js joinedTimestamp, number or null). -/
structure Member where
  id : String
  joinedTimestamp : Option Int
deriving DecidableEq

/-- A guild: identifier and the platform-reported approximate member count
(guild.memberCount, possibly undefined). -/
structure Guild where
  id : String
  memberCount : Option Nat
deriving DecidableEq

/-- JavaScript truthiness of a numeric-or-null timestamp: null, undefined
and the number 0 are falsy; every other number is truthy. -/
def tsTruthy : Option Int → Bool
  | none => false
  | some t => t != 0

/-- State owned by the notification scheduler: the lastNotified map
(memberId to timestamp), the notifyBuffer of pending (guildId, member)
pairs, and the single debounce timer modelled as its firing deadline. -/
structure SchedState where
  lastNotified : List (String × Int)
  notifyBuffer : List (String × Member)
  debounceDeadline : Option Int
deriving DecidableEq

/-- lastNotified.get(member.id) with missing entries read as 0
(the `|| 0` in scheduleNotify). -/
def lastOf (s : SchedState) (id : String) : Int :=
  (s.lastNotified.lookup id).getD 0

/-- lastNotified.set(id, v): replace any existing entry for this key. -/
def lnSet (l : List (String × Int)) (k : String) (v : Int) : List (String × Int) :=
  (k, v) :: l.filter (fun p => p.1 != k)

/-- scheduleNotify(member, guild) at time `now`: drop inside the cooldown
window, otherwise record lastNotified, append to the buffer and re-arm the
debounce timer (clearTimeout of the old one, setTimeout of a fresh one). -/
def scheduleNotify (now : Int) (m : Member) (g : Guild) (s : SchedState) : SchedState :=
  if now - lastOf s m.id < notifyCooldownMs then s
  else
    { lastNotified := lnSet s.lastNotified m.id now
      notifyBuffer := s.notifyBuffer ++ [(g.id, m)]
      debounceDeadline := some (now + notifyDebounceMs) }

/-- One step of the byGuild grouping loop in flushNotifyBuffer: push the
member onto its guild's list, creating the group on first occurrence. -/
def insertGrouped : List (String × List Member) → String → Member → List (String × List Member)
  | [], g, m => [(g, [m])]
  | (g', ms) :: rest, g, m =>
    if g' = g then (g', ms ++ [m]) :: rest
    else (g', ms) :: insertGrouped rest g m

/-- The byGuild map built by flushNotifyBuffer, in first-occurrence order. -/
def groupByGuild (buf : List (String × Member)) : List (String × List Member) :=
  buf.foldl (fun acc p => insertGrouped acc p.1 p.2) []

/-- Flatten a grouped buffer back to (guildId, member) pairs. -/
def ungroup : List (String × List Member) → List (String × Member)
  | [] => []
  | (g, ms) :: rest => ms.map (fun m => (g, m)) ++ ungroup rest

/-- flushNotifyBuffer: return immediately on an empty buffer, otherwise
clear the buffer and emit the groups that get dispatched per guild. -/
def flushNotifyBuffer (s : SchedState) : SchedState × List (String × List Member) :=
  if s.notifyBuffer.isEmpty then (s, [])
  else ({ s with notifyBuffer := [] }, groupByGuild s.notifyBuffer)

/-- Whether the armed debounce timer (if any) fires strictly before time t. -/
def timerFires (dl : Option Int) (t : Int) : Bool :=
  match dl with
  | none => false
  | some d => decide (d < t)

/-- Execution of the scheduler over a time-ordered list of schedule calls
(time, member, guild).  Before each call the debounce timer fires if its
deadline has passed; after the last call the remaining timer fires.  The
second component collects the flush events in order. -/
def runSched : SchedState → List (Int × Member × Guild) → SchedState × List (List (String × List Member))
  | s, [] =>
    match s.debounceDeadline with
    | none => (s, [])
    | some _ =>
      let fl := flushNotifyBuffer { s with debounceDeadline := none }
      (fl.1, [fl.2])
  | s, (t, m, g) :: rest =>
    if timerFires s.debounceDeadline t then
      let fl := flushNotifyBuffer { s with debounceDeadline := none }
      let r := runSched (scheduleNotify t m g fl.1) rest
      (r.1, fl.2 :: r.2)
    else
      runSched (scheduleNotify t m g s) rest

/-- The (guildId, member) pairs of a list of schedule calls. -/
def callPairs (cs : List (Int × Member × Guild)) : List (String × Member) :=
  cs.map (fun c => (c.2.2.id, c.2.1))

/-- Whether every call of a burst passes scheduleNotify's cooldown check in
the lastNotified state it actually encounters: the check of the first call
reads the given map, and each accepted call records its own timestamp
before the next check, exactly as scheduleNotify does.  A burst may repeat
a member id, provided the repeat falls outside the cooldown window. -/
def allAccepted (ln : List (String × Int)) : List (Int × Member × Guild) → Bool
  | [] => true
  | (t, m, _) :: rest =>
    if t - ((ln.lookup m.id).getD 0) < notifyCooldownMs then false
    else allAccepted (lnSet ln m.id t) rest

/-- Set.add on a member-id set kept as a duplicate-free list in insertion
order. -/
def setAdd (l : List String) (x : String) : List String :=
  if l.contains x then l else l ++ [x]

/-- diffNewMembers: fetched roster members whose id is not in the known set. -/
def diffNewMembers (known : List String) (fetched : List Member) : List Member :=
  fetched.filter (fun m => !(known.contains m.id))

/-- The recency filter of pollWorker: `!m.joinedTimestamp ||
m.joinedTimestamp >= startupTs - 5000` with JS truthiness. -/
def realNewPred (startupTs : Int) (m : Member) : Bool :=
  !(tsTruthy m.joinedTimestamp) || decide (startupTs - 5000 ≤ m.joinedTimestamp.getD 0)

/-- Everything one reconciliation tick does to one guild: the updated known
set and scheduler state, the members handed to scheduleNotify, whether
savePersistence was requested, and whether the roster was fetched at all. -/
structure TickResult where
  known : List String
  sched : SchedState
  forwarded : List Member
  saveRequested : Bool
  didFetch : Bool
deriving DecidableEq

/-- Mark every member of the list as known (the `for (const m of newMembers)
knownMembers[guildId].add(m.id)` loop). -/
def markKnown (known : List String) (ms : List Member) : List String :=
  ms.foldl (fun acc m => setAdd acc m.id) known

/-- The body of pollWorker for a single guild: short-circuit on the member
count, diff the fetched roster against the known set, apply the recency
filter, mark all new members known, persist, and forward the real new
members to scheduleNotify. -/
def pollGuildTick (now startupTs : Int) (g : Guild) (fetched : List Member)
    (known : List String) (sched : SchedState) : TickResult :=
  if g.memberCount.getD 0 ≤ known.length then
    ⟨known, sched, [], false, false⟩
  else
    let newMembers := diffNewMembers known fetched
    if newMembers.isEmpty then ⟨known, sched, [], false, true⟩
    else
      let realNew := newMembers.filter (realNewPred startupTs)
      let known1 := markKnown known newMembers
      if realNew.isEmpty then ⟨known1, sched, [], true, true⟩
      else ⟨known1, realNew.foldl (fun s m => scheduleNotify now m g s) sched, realNew, true, true⟩

/-- The whole mutable state of the script that dispatch can see: the
knownMembers map and the scheduler state. -/
structure SysState where
  knownMembers : List (String × List String)
  sched : SchedState
deriving DecidableEq

/-- flushNotifyBuffer at the system level, with a per-guild dispatch outcome
(true: channel fetch and send succeeded, false: it threw and was logged).
The source flushNotifyBuffer never references knownMembers, so the known
map is carried through unchanged whatever the outcomes are. -/
def flushSystem (s : SysState) (dispatchOk : String → Bool) :
    SysState × List (String × List Member × Bool) :=
  let fl := flushNotifyBuffer s.sched
  ({ s with sched := fl.1 }, fl.2.map (fun p => (p.1, p.2, dispatchOk p.1)))

/-- knownMembers[g] read as a list of ids (empty when the guild is absent). -/
def kmLookup (km : List (String × List String)) (g : String) : List String :=
  (km.lookup g).getD []

/-- Result of one run of the guildMemberAdd handler (the scheduler-routed
variant): updated known set, whether savePersistence was requested, the
scheduler state, and the member handed to scheduleNotify if any. -/
structure HandlerResult where
  known : List String
  saveRequested : Bool
  sched : SchedState
  forwarded : Option Member
deriving DecidableEq

/-- The guildMemberAdd handler: ignore when the member is already known for
its guild, or when its (truthy) join timestamp is more than 2s older than
client.readyAt; otherwise mark known, request persistence and hand the
member to scheduleNotify. -/
def guildMemberAdd (readyAt : Option Int) (now : Int) (m : Member) (g : Guild)
    (known : List String) (sched : SchedState) : HandlerResult :=
  if known.contains m.id then ⟨known, false, sched, none⟩
  else if tsTruthy m.joinedTimestamp && readyAt.isSome
      && decide (m.joinedTimestamp.getD 0 < readyAt.getD 0 - 2000) then
    ⟨known, false, sched, none⟩
  else ⟨setAdd known m.id, true, scheduleNotify now m g sched, some m⟩

/-- Result of one run of the guildMemberAdd handler of the instant-dispatch
variant: updated known set, whether savePersistence was requested, and the
member whose formatted join log is sent immediately, if any. -/
structure InstantHandlerResult where
  known : List String
  saveRequested : Bool
  dispatched : Option Member
deriving DecidableEq

/-- The guildMemberAdd handler of the instant-dispatch variant: the same
idempotency and recency guards, but on success it sends one formatted
message to the log channel right away instead of routing through
scheduleNotify (no debounce, no cooldown record). -/
def guildMemberAddInstant (readyAt : Option Int) (m : Member)
    (known : List String) : InstantHandlerResult :=
  if known.contains m.id then ⟨known, false, none⟩
  else if tsTruthy m.joinedTimestamp && readyAt.isSome
      && decide (m.joinedTimestamp.getD 0 < readyAt.getD 0 - 2000) then
    ⟨known, false, none⟩
  else ⟨setAdd known m.id, true, some m⟩

/-- A parsed JSON value, as produced by JSON.parse on the persistence file. -/
inductive Json where
  | jnull : Json
  | jbool : Bool → Json
  | jnum : Int → Json
  | jstr : String → Json
  | jarr : List Json → Json
  | jobj : List (String × Json) → Json

mutual

/-- SameValueZero equality on JSON values, as used by JS Set membership. -/
def jsonBEq : Json → Json → Bool
  | .jnull, .jnull => true
  | .jbool a, .jbool b => a == b
  | .jnum a, .jnum b => a == b
  | .jstr a, .jstr b => a == b
  | .jarr a, .jarr b => jsonListBEq a b
  | .jobj a, .jobj b => jsonObjBEq a b
  | _, _ => false

def jsonListBEq : List Json → List Json → Bool
  | [], [] => true
  | x :: xs, y :: ys => jsonBEq x y && jsonListBEq xs ys
  | _, _ => false

def jsonObjBEq : List (String × Json) → List (String × Json) → Bool
  | [], [] => true
  | (k, v) :: xs, (l, w) :: ys => k == l && jsonBEq v w && jsonObjBEq xs ys
  | _, _ => false

end

/-- Keep the first occurrence of each value, in iteration order, as a JS Set
built from an iterable does. -/
def jsDedupAux (seen : List Json) : List Json → List Json
  | [] => []
  | x :: xs =>
    if seen.any (fun y => jsonBEq x y) then jsDedupAux seen xs
    else x :: jsDedupAux (x :: seen) xs

/-- The element list of `new Set(l)` for a list of values. -/
def jsSetOfList (l : List Json) : List Json := jsDedupAux [] l

/-- `new Set(v)`: arrays and strings are iterable, null or undefined give an
empty set, and every other value raises a TypeError. -/
def jsNewSet : Json → Except Unit (List Json)
  | .jarr xs => .ok (jsSetOfList xs)
  | .jstr s => .ok (jsSetOfList (s.toList.map (fun c => .jstr (String.singleton c))))
  | .jnull => .ok []
  | _ => .error ()

/-- Object.keys(obj || {}) paired with the corresponding obj[key] reads:
own enumerable entries of an object, index entries of an array or string,
nothing for primitives (and null is replaced by {}). -/
def jsOwnEntries : Json → List (String × Json)
  | .jobj fields => fields
  | .jarr xs => xs.enum.map (fun p => (toString p.1, p.2))
  | .jstr s => s.toList.enum.map (fun p => (toString p.1, .jstr (String.singleton p.2)))
  | _ => []

/-- knownMembers as loadPersistence rebuilds it: guild id to the element
list of the freshly constructed Set. -/
abbrev KnownJson := List (String × List Json)

/-- `knownMembers[k] = v`: update the entry in place when the key exists,
otherwise append it. -/
def kmSet (km : KnownJson) (k : String) (v : List Json) : KnownJson :=
  if km.any (fun p => p.1 == k) then km.map (fun p => if p.1 == k then (k, v) else p)
  else km ++ [(k, v)]

/-- The guild loop of loadPersistence: assign each guild in turn; a
TypeError from `new Set` aborts the loop into the catch block, which
returns false and keeps whatever was already assigned. -/
def loadEntries (km : KnownJson) : List (String × Json) → KnownJson × Bool
  | [] => (km, true)
  | (k, v) :: rest =>
    match jsNewSet v with
    | .error _ => (km, false)
    | .ok s => loadEntries (kmSet km k s) rest

/-- What reading and parsing the persistence file produced: the file was
missing (ENOENT), some other read error was thrown, JSON.parse threw, or a
JSON value came back. -/
inductive ReadOutcome where
  | enoent : ReadOutcome
  | ioError : ReadOutcome
  | parseError : ReadOutcome
  | parsed : Json → ReadOutcome

/-- loadPersistence over the ambient knownMembers: every thrown error is
caught and reported as `false`; a parsed value is folded into the map and
reported as `true` unless a guild entry raises mid-loop. -/
def loadPersistence (km : KnownJson) (r : ReadOutcome) : KnownJson × Bool :=
  match r with
  | .enoent => (km, false)
  | .ioError => (km, false)
  | .parseError => (km, false)
  | .parsed j => loadEntries km (jsOwnEntries j)

/-- The dump object savePersistence writes: one array per guild, the
Array.from image of the in-memory Set in insertion order. -/
def saveDump (km : List (String × List String)) : Json :=
  .jobj (km.map (fun p => (p.1, Json.jarr (p.2.map Json.jstr))))

/-- Observable state of the debounced save path: the saveScheduled flag,
how many 800ms timers are pending and how many file writes are in flight. -/
structure SaveState where
  saveScheduled : Bool
  timersPending : Nat
  writesInFlight : Nat
deriving DecidableEq

/-- The three events that touch the save path: a savePersistence call, the
800ms timer firing (the write starts), and the write finishing (the
finally block clears the flag, on success and on failure alike). -/
inductive SaveEv where
  | saveCall : SaveEv
  | timerFire : SaveEv
  | writeComplete : SaveEv

/-- One event of the save machine.  A call with the flag already set
returns immediately; otherwise it sets the flag and schedules one timer.
Timer-fire and write-completion events are no-ops when nothing is pending,
since such events cannot be delivered. -/
def saveStep (s : SaveState) : SaveEv → SaveState
  | .saveCall =>
    if s.saveScheduled then s
    else { s with saveScheduled := true, timersPending := s.timersPending + 1 }
  | .timerFire =>
    if s.timersPending = 0 then s
    else { s with timersPending := s.timersPending - 1, writesInFlight := s.writesInFlight + 1 }
  | .writeComplete =>
    if s.writesInFlight = 0 then s
    else { saveScheduled := false, timersPending := s.timersPending
           writesInFlight := s.writesInFlight - 1 }

/-- Module load state: flag clear, nothing pending. -/
def saveInit : SaveState := ⟨false, 0, 0⟩

/-- Run the save machine over a sequence of events from startup. -/
def runSave (evs : List SaveEv) : SaveState := evs.foldl saveStep saveInit

/-- Sample member used to instantiate theorems on concrete inputs. -/
def sampleMemberA : Member := ⟨"a", none⟩

/-- A second sample member with a distinct id. -/
def sampleMemberB : Member := ⟨"b", none⟩

/-- Sample guild used to instantiate theorems on concrete inputs. -/
def sampleGuild : Guild := ⟨"g", none⟩

/-- The scheduler state at process start: no cooldowns, empty buffer, no timer. -/
def schedEmpty : SchedState := ⟨[], [], none⟩

/-- Number of buffer entries carrying the given member id. -/
def countFor (id : String) (buf : List (String × Member)) : Nat :=
  (buf.filter (fun p => p.2.id == id)).length

/-! ### Helper lemmas -/

theorem lookup_lnSet_self (l : List (String × Int)) (k : String) (v : Int) :
    List.lookup k (lnSet l k v) = some v := by
  simp [lnSet, List.lookup]

theorem lookup_filter_ne (l : List (String × Int)) (k k' : String) (h : k' ≠ k) :
    List.lookup k' (l.filter (fun p => p.1 != k)) = List.lookup k' l := by
  induction l with
  | nil => rfl
  | cons p tl ih =>
    obtain ⟨a, b⟩ := p
    by_cases ha : a = k
    · have hk2 : (k' == a) = false := beq_eq_false_iff_ne.mpr (by rw [ha]; exact h)
      have hk3 : (k' == k) = false := beq_eq_false_iff_ne.mpr h
      simp [List.filter_cons, ha, List.lookup, hk2, hk3, ih]
    · by_cases hk : k' = a
      · simp [List.filter_cons, ha, List.lookup, hk]
      · have hk2 : (k' == a) = false := beq_eq_false_iff_ne.mpr hk
        simp [List.filter_cons, ha, List.lookup, hk2, ih]

theorem lookup_lnSet_ne (l : List (String × Int)) (k k' : String) (v : Int) (h : k' ≠ k) :
    List.lookup k' (lnSet l k v) = List.lookup k' l := by
  have hk : (k' == k) = false := beq_eq_false_iff_ne.mpr h
  simp [lnSet, List.lookup, hk, lookup_filter_ne l k k' h]

theorem scheduleNotify_drop {now : Int} {m : Member} {g : Guild} {s : SchedState}
    (h : now - lastOf s m.id < notifyCooldownMs) :
    scheduleNotify now m g s = s := by
  simp [scheduleNotify, h]

theorem scheduleNotify_accept {now : Int} {m : Member} {g : Guild} {s : SchedState}
    (h : notifyCooldownMs ≤ now - lastOf s m.id) :
    scheduleNotify now m g s =
      ⟨lnSet s.lastNotified m.id now, s.notifyBuffer ++ [(g.id, m)],
        some (now + notifyDebounceMs)⟩ := by
  rw [scheduleNotify, if_neg (by omega)]

theorem lastOf_accept (s : SchedState) (m : Member) (g : Guild) (now : Int)
    (h : notifyCooldownMs ≤ now - lastOf s m.id) :
    lastOf (scheduleNotify now m g s) m.id = now := by
  rw [scheduleNotify_accept h]
  simp [lastOf, lookup_lnSet_self]

theorem mem_setAdd_of_mem {x : String} {l : List String} (y : String) (h : x ∈ l) :
    x ∈ setAdd l y := by
  unfold setAdd; split
  · exact h
  · exact List.mem_append_left _ h

theorem mem_setAdd_self (l : List String) (x : String) : x ∈ setAdd l x := by
  unfold setAdd; split
  · next hc => exact List.mem_of_elem_eq_true hc
  · exact List.mem_append_right _ (List.mem_singleton_self x)

theorem mem_markKnown_of_mem {x : String} {known : List String} (ms : List Member)
    (h : x ∈ known) : x ∈ markKnown known ms := by
  induction ms generalizing known with
  | nil => exact h
  | cons a tl ih =>
    simp only [markKnown, List.foldl_cons]
    exact ih (mem_setAdd_of_mem a.id h)

theorem mem_markKnown_of_memList {m : Member} {ms : List Member} (known : List String)
    (h : m ∈ ms) : m.id ∈ markKnown known ms := by
  induction ms generalizing known with
  | nil => cases h
  | cons a tl ih =>
    simp only [markKnown, List.foldl_cons]
    rcases List.mem_cons.mp h with h1 | h1
    · subst h1
      exact mem_markKnown_of_mem tl (mem_setAdd_self known m.id)
    · exact ih _ h1

theorem forwarded_sub_diff {now startupTs : Int} {g : Guild} {fetched : List Member}
    {known : List String} {sched : SchedState} {x : Member}
    (hx : x ∈ (pollGuildTick now startupTs g fetched known sched).forwarded) :
    x ∈ diffNewMembers known fetched := by
  simp only [pollGuildTick] at hx
  split at hx
  · simp at hx
  · split at hx
    · simp at hx
    · split at hx
      · simp at hx
      · exact List.mem_of_mem_filter hx

theorem mem_diff_not_known {known : List String} {fetched : List Member} {x : Member}
    (hx : x ∈ diffNewMembers known fetched) : ¬ x.id ∈ known := by
  have h := List.of_mem_filter hx
  simp only [Bool.not_eq_true'] at h
  simp [List.contains] at h
  exact h

theorem saveStep_sum (s : SaveState) (e : SaveEv)
    (hs : s.timersPending + s.writesInFlight = (if s.saveScheduled then 1 else 0)) :
    (saveStep s e).timersPending + (saveStep s e).writesInFlight
      = (if (saveStep s e).saveScheduled then 1 else 0) := by
  obtain ⟨fl, tp, wf⟩ := s
  cases e <;> cases fl <;> simp only [saveStep] <;> split_ifs <;> simp_all <;> omega

/-! ### Claims -/

/-- Claim C9: in every execution of the save machine, at most one
persistence write is scheduled (timer pending) or in flight at any time,
so repeated or concurrent savePersistence calls never produce two
overlapping writes. -/
theorem save_coalesce_invariant (evs : List SaveEv) :
    (runSave evs).timersPending + (runSave evs).writesInFlight ≤ 1 := by
  have key : ∀ (l : List SaveEv) (s : SaveState),
      s.timersPending + s.writesInFlight = (if s.saveScheduled then 1 else 0) →
      (l.foldl saveStep s).timersPending + (l.foldl saveStep s).writesInFlight
        = (if (l.foldl saveStep s).saveScheduled then 1 else 0) := by
    intro l
    induction l with
    | nil => intro s hs; exact hs
    | cons e tl ih =>
      intro s hs
      exact ih _ (saveStep_sum s e hs)
  have h := key evs saveInit (by simp [saveInit])
  rw [runSave]
  rw [h]
  split <;> omega

/-- Claim C6 (counterexample): a persistence file whose contents are valid
JSON but not a guild-to-array object — here the bare number 5 — makes
loadPersistence report existed = true, not false as the claim requires for
every malformed on-disk state. -/
theorem loadPersistence_existed_cex :
    (loadPersistence [] (ReadOutcome.parsed (Json.jnum 5))).2 = true := rfl

/-- Claim C6 (amended): loadPersistence returns normally with
existed = false when the file is missing, unreadable, or fails JSON
parsing, and also when a parsed guild entry is not iterable (the thrown
TypeError is caught); a parsed value that is valid JSON of the wrong shape
may instead report existed = true. -/
theorem loadPersistence_failsoft (km : KnownJson) (g : String) (n : Int) :
    loadPersistence km ReadOutcome.enoent = (km, false) ∧
    loadPersistence km ReadOutcome.ioError = (km, false) ∧
    loadPersistence km ReadOutcome.parseError = (km, false) ∧
    loadPersistence km (ReadOutcome.parsed (Json.jobj [(g, Json.jnum n)])) = (km, false) :=
  ⟨rfl, rfl, rfl, rfl⟩

/-- Claim C8: when the platform-reported member count is at most the size
of the locally known set, the reconciliation tick skips the guild
entirely: no fetch, no marking, no save request, nothing forwarded, and
both the known set and the scheduler state unchanged. -/
theorem pollTick_skip_short_circuit (now startupTs : Int) (g : Guild)
    (fetched : List Member) (known : List String) (sched : SchedState)
    (h : g.memberCount.getD 0 ≤ known.length) :
    pollGuildTick now startupTs g fetched known sched = ⟨known, sched, [], false, false⟩ := by
  simp [pollGuildTick, h]

theorem pollTick_skip_short_circuit_witness :
    (⟨"g", some 2⟩ : Guild).memberCount.getD 0 ≤ (["a", "b"] : List String).length ∧
    pollGuildTick 0 0 ⟨"g", some 2⟩ [] ["a", "b"] schedEmpty
      = ⟨["a", "b"], schedEmpty, [], false, false⟩ :=
  ⟨by decide, pollTick_skip_short_circuit 0 0 ⟨"g", some 2⟩ [] ["a", "b"] schedEmpty (by decide)⟩

/-- Claim C2: after an accepted scheduleNotify for member M at t1, a second
call within the cooldown window is dropped with no side effect at all (the
whole scheduler state — lastNotified, buffer and debounce timer — is
unchanged), while a call after the window has elapsed is accepted and
appends M to the buffer again; the first call put exactly one entry for M
into the buffer. -/
theorem scheduleNotify_cooldown (s0 : SchedState) (m : Member) (g1 g2 g3 : Guild)
    (t1 t2 t3 : Int)
    (h1 : notifyCooldownMs ≤ t1 - lastOf s0 m.id)
    (h2 : t2 - t1 < notifyCooldownMs)
    (h3 : notifyCooldownMs ≤ t3 - t1) :
    (scheduleNotify t1 m g1 s0).notifyBuffer = s0.notifyBuffer ++ [(g1.id, m)] ∧
    scheduleNotify t2 m g2 (scheduleNotify t1 m g1 s0) = scheduleNotify t1 m g1 s0 ∧
    (scheduleNotify t3 m g3 (scheduleNotify t1 m g1 s0)).notifyBuffer
      = (scheduleNotify t1 m g1 s0).notifyBuffer ++ [(g3.id, m)] := by
  have hl : lastOf (scheduleNotify t1 m g1 s0) m.id = t1 := lastOf_accept s0 m g1 t1 h1
  refine ⟨?_, ?_, ?_⟩
  · rw [scheduleNotify_accept h1]
  · exact scheduleNotify_drop (by rw [hl]; exact h2)
  · rw [scheduleNotify_accept (show notifyCooldownMs ≤
      t3 - lastOf (scheduleNotify t1 m g1 s0) m.id by rw [hl]; exact h3)]

theorem scheduleNotify_cooldown_witness :
    notifyCooldownMs ≤ 600000 - lastOf schedEmpty sampleMemberA.id ∧
    (600001 : Int) - 600000 < notifyCooldownMs ∧
    notifyCooldownMs ≤ (1300000 : Int) - 600000 ∧
    ((scheduleNotify 600000 sampleMemberA sampleGuild schedEmpty).notifyBuffer
        = schedEmpty.notifyBuffer ++ [(sampleGuild.id, sampleMemberA)] ∧
      scheduleNotify 600001 sampleMemberA sampleGuild
          (scheduleNotify 600000 sampleMemberA sampleGuild schedEmpty)
        = scheduleNotify 600000 sampleMemberA sampleGuild schedEmpty ∧
      (scheduleNotify 1300000 sampleMemberA sampleGuild
          (scheduleNotify 600000 sampleMemberA sampleGuild schedEmpty)).notifyBuffer
        = (scheduleNotify 600000 sampleMemberA sampleGuild schedEmpty).notifyBuffer
            ++ [(sampleGuild.id, sampleMemberA)]) :=
  ⟨by decide, by decide, by decide,
    scheduleNotify_cooldown schedEmpty sampleMemberA sampleGuild sampleGuild sampleGuild
      600000 600001 1300000 (by decide) (by decide) (by decide)⟩

/-- Claim C10: the cooldown is keyed by the member id alone — after an
accepted notification for M in guild A, a scheduleNotify for M in a
different guild B within the cooldown window is suppressed unchanged, so
the buffer holds exactly one entry for M across both guilds. -/
theorem cooldown_cross_guild (s0 : SchedState) (m : Member) (gA gB : Guild) (t1 t2 : Int)
    (_hg : gA.id ≠ gB.id)
    (h1 : notifyCooldownMs ≤ t1 - lastOf s0 m.id)
    (h2 : t2 - t1 < notifyCooldownMs) :
    scheduleNotify t2 m gB (scheduleNotify t1 m gA s0) = scheduleNotify t1 m gA s0 ∧
    countFor m.id (scheduleNotify t2 m gB (scheduleNotify t1 m gA s0)).notifyBuffer
      = countFor m.id s0.notifyBuffer + 1 := by
  have hl : lastOf (scheduleNotify t1 m gA s0) m.id = t1 := lastOf_accept s0 m gA t1 h1
  have hdrop : scheduleNotify t2 m gB (scheduleNotify t1 m gA s0)
      = scheduleNotify t1 m gA s0 :=
    scheduleNotify_drop (by rw [hl]; exact h2)
  refine ⟨hdrop, ?_⟩
  rw [hdrop, scheduleNotify_accept h1]
  simp [countFor, List.filter_append]

theorem cooldown_cross_guild_witness :
    (⟨"gA", none⟩ : Guild).id ≠ (⟨"gB", none⟩ : Guild).id ∧
    notifyCooldownMs ≤ 600000 - lastOf schedEmpty sampleMemberA.id ∧
    (600002 : Int) - 600000 < notifyCooldownMs ∧
    (scheduleNotify 600002 sampleMemberA ⟨"gB", none⟩
        (scheduleNotify 600000 sampleMemberA ⟨"gA", none⟩ schedEmpty)
      = scheduleNotify 600000 sampleMemberA ⟨"gA", none⟩ schedEmpty ∧
    countFor sampleMemberA.id (scheduleNotify 600002 sampleMemberA ⟨"gB", none⟩
        (scheduleNotify 600000 sampleMemberA ⟨"gA", none⟩ schedEmpty)).notifyBuffer
      = countFor sampleMemberA.id schedEmpty.notifyBuffer + 1) :=
  ⟨by decide, by decide, by decide,
    cooldown_cross_guild schedEmpty sampleMemberA ⟨"gA", none⟩ ⟨"gB", none⟩ 600000 600002
      (by decide) (by decide) (by decide)⟩

/-- Claim C1: once a member id is in the known set of a guild, a
reconciliation tick never hands any roster member carrying that id to the
scheduler, the id stays in the known set after the tick, and dispatch
(flushing the buffer, with any pattern of per-guild send failures) never
removes anything from the known-member map. -/
theorem pollTick_never_reforwards_known
    (now startupTs : Int) (g : Guild) (fetched : List Member) (known : List String)
    (sched : SchedState) (mid : String) (sys : SysState) (dispatchOk : String → Bool)
    (hm : mid ∈ known) :
    (∀ x ∈ (pollGuildTick now startupTs g fetched known sched).forwarded, x.id ≠ mid) ∧
    mid ∈ (pollGuildTick now startupTs g fetched known sched).known ∧
    (flushSystem sys dispatchOk).1.knownMembers = sys.knownMembers := by
  refine ⟨?_, ?_, rfl⟩
  · intro x hx hxid
    exact mem_diff_not_known (forwarded_sub_diff hx) (hxid ▸ hm)
  · simp only [pollGuildTick]
    split
    · exact hm
    · split
      · exact hm
      · split
        · exact mem_markKnown_of_mem _ hm
        · exact mem_markKnown_of_mem _ hm

theorem pollTick_never_reforwards_known_witness :
    sampleMemberA.id ∈ [sampleMemberA.id] ∧
    ((∀ x ∈ (pollGuildTick 0 0 sampleGuild [sampleMemberA] [sampleMemberA.id]
          schedEmpty).forwarded, x.id ≠ sampleMemberA.id) ∧
      sampleMemberA.id ∈ (pollGuildTick 0 0 sampleGuild [sampleMemberA] [sampleMemberA.id]
          schedEmpty).known ∧
      (flushSystem ⟨[], schedEmpty⟩ (fun _ => false)).1.knownMembers
        = (⟨[], schedEmpty⟩ : SysState).knownMembers) :=
  ⟨by decide,
    pollTick_never_reforwards_known 0 0 sampleGuild [sampleMemberA] [sampleMemberA.id]
      schedEmpty sampleMemberA.id ⟨[], schedEmpty⟩ (fun _ => false) (by decide)⟩

/-- Claim C7 (counterexample): a live join event for an unknown member
whose join timestamp is exactly 0 — which predates a startup time of 10000
by far more than 2 seconds, so the claim requires the event to be ignored —
is processed by both variants of the handler: the member is marked known,
persistence is requested, and a notification is produced (forwarded to the
scheduler in one variant, dispatched immediately in the other), because
`member.joinedTimestamp &&` treats the number 0 as absent. -/
theorem guildMemberAdd_zero_ts_cex :
    (guildMemberAdd (some 10000) 700000 ⟨"a", some 0⟩ ⟨"g", none⟩ [] schedEmpty).forwarded
      = some ⟨"a", some 0⟩ ∧
    (guildMemberAdd (some 10000) 700000 ⟨"a", some 0⟩ ⟨"g", none⟩ [] schedEmpty).known
      = ["a"] ∧
    (guildMemberAddInstant (some 10000) ⟨"a", some 0⟩ []).dispatched
      = some ⟨"a", some 0⟩ ∧
    (guildMemberAddInstant (some 10000) ⟨"a", some 0⟩ []).known = ["a"] ∧
    (Member.joinedTimestamp ⟨"a", some 0⟩).getD 0 < 10000 - 2000 := by
  refine ⟨rfl, rfl, rfl, rfl, by decide⟩

/-- Claim C7 (amended): both variants of the live-join handler ignore an
event — no state change, no save request, no notification — when the
member is already known for its guild, or when its join timestamp is
truthy (present and nonzero) and more than 2s before client.readyAt;
otherwise each marks the member known, requests persistence, and produces
a notification — the one variant by handing the member to scheduleNotify,
the other by dispatching an immediate unbatched message.  A join timestamp
of exactly zero counts as absent and does not trigger the recency guard. -/
theorem guildMemberAdd_guard (r0 now : Int) (m : Member) (g : Guild)
    (known : List String) (sched : SchedState) :
    (m.id ∈ known →
      guildMemberAdd (some r0) now m g known sched = ⟨known, false, sched, none⟩ ∧
      guildMemberAddInstant (some r0) m known = ⟨known, false, none⟩) ∧
    (¬ m.id ∈ known → tsTruthy m.joinedTimestamp = true →
      m.joinedTimestamp.getD 0 < r0 - 2000 →
      guildMemberAdd (some r0) now m g known sched = ⟨known, false, sched, none⟩ ∧
      guildMemberAddInstant (some r0) m known = ⟨known, false, none⟩) ∧
    (¬ m.id ∈ known →
      (tsTruthy m.joinedTimestamp = false ∨ r0 - 2000 ≤ m.joinedTimestamp.getD 0) →
      guildMemberAdd (some r0) now m g known sched
        = ⟨setAdd known m.id, true, scheduleNotify now m g sched, some m⟩ ∧
      guildMemberAddInstant (some r0) m known
        = ⟨setAdd known m.id, true, some m⟩) := by
  refine ⟨?_, ?_, ?_⟩
  · intro hm
    constructor
    · simp [guildMemberAdd, hm]
    · simp [guildMemberAddInstant, hm]
  · intro hm ht hlt
    constructor
    · simp [guildMemberAdd, hm, ht]
      omega
    · simp [guildMemberAddInstant, hm, ht]
      omega
  · intro hm hg
    rcases hg with ht | hge
    · constructor
      · simp [guildMemberAdd, hm, ht]
      · simp [guildMemberAddInstant, hm, ht]
    · constructor
      · simp [guildMemberAdd, hm,
          show ¬ m.joinedTimestamp.getD 0 < r0 - 2000 from not_lt.mpr hge]
      · simp [guildMemberAddInstant, hm,
          show ¬ m.joinedTimestamp.getD 0 < r0 - 2000 from not_lt.mpr hge]

theorem guildMemberAdd_guard_witness :
    (sampleMemberA.id ∈ [sampleMemberA.id] →
      guildMemberAdd (some 10000) 0 sampleMemberA sampleGuild [sampleMemberA.id] schedEmpty
        = ⟨[sampleMemberA.id], false, schedEmpty, none⟩ ∧
      guildMemberAddInstant (some 10000) sampleMemberA [sampleMemberA.id]
        = ⟨[sampleMemberA.id], false, none⟩) ∧
    (guildMemberAdd (some 10000) 0 sampleMemberA sampleGuild [sampleMemberA.id] schedEmpty
        = ⟨[sampleMemberA.id], false, schedEmpty, none⟩ ∧
      guildMemberAddInstant (some 10000) sampleMemberA [sampleMemberA.id]
        = ⟨[sampleMemberA.id], false, none⟩) ∧
    (guildMemberAdd (some 10000) 700000 sampleMemberB sampleGuild [sampleMemberA.id] schedEmpty
        = ⟨setAdd [sampleMemberA.id] sampleMemberB.id, true,
            scheduleNotify 700000 sampleMemberB sampleGuild schedEmpty, some sampleMemberB⟩ ∧
      guildMemberAddInstant (some 10000) sampleMemberB [sampleMemberA.id]
        = ⟨setAdd [sampleMemberA.id] sampleMemberB.id, true, some sampleMemberB⟩) :=
  ⟨(guildMemberAdd_guard 10000 0 sampleMemberA sampleGuild [sampleMemberA.id] schedEmpty).1,
    (guildMemberAdd_guard 10000 0 sampleMemberA sampleGuild
      [sampleMemberA.id] schedEmpty).1 (by decide),
    (guildMemberAdd_guard 10000 700000 sampleMemberB sampleGuild
      [sampleMemberA.id] schedEmpty).2.2 (by decide) (by decide)⟩

/-- Claim C3 (counterexample): a fetched candidate not in the known set
whose join timestamp is exactly 0 — present, and far more than 5s before a
startup time of 10000, so the claim requires it not to be forwarded — is
forwarded by the tick, because `!m.joinedTimestamp` treats the number 0 as
a missing timestamp. -/
theorem pollTick_recency_zero_ts_cex :
    (⟨"a", some 0⟩ : Member) ∈ (pollGuildTick 10000 10000 ⟨"g", some 1⟩
        [⟨"a", some 0⟩] [] schedEmpty).forwarded ∧
    (Member.joinedTimestamp ⟨"a", some 0⟩) ≠ none ∧
    (Member.joinedTimestamp ⟨"a", some 0⟩).getD 0 < 10000 - 5000 := by
  refine ⟨?_, by decide, by decide⟩
  show (⟨"a", some 0⟩ : Member) ∈ [(⟨"a", some 0⟩ : Member)]
  exact List.mem_singleton_self _

/-- Shape of a non-skipped tick whose diff found at least one new member. -/
theorem pollGuildTick_eq (now startupTs : Int) (g : Guild) (fetched : List Member)
    (known : List String) (sched : SchedState)
    (hsz : known.length < g.memberCount.getD 0)
    (hne : (diffNewMembers known fetched).isEmpty = false) :
    pollGuildTick now startupTs g fetched known sched =
      (if ((diffNewMembers known fetched).filter (realNewPred startupTs)).isEmpty then
        ⟨markKnown known (diffNewMembers known fetched), sched, [], true, true⟩
      else
        ⟨markKnown known (diffNewMembers known fetched),
          ((diffNewMembers known fetched).filter (realNewPred startupTs)).foldl
            (fun s m => scheduleNotify now m g s) sched,
          (diffNewMembers known fetched).filter (realNewPred startupTs), true, true⟩) := by
  simp only [pollGuildTick]
  rw [if_neg (not_le.mpr hsz), if_neg (by simp [hne])]

/-- Claim C3 (amended): on a non-skipped tick, a candidate (a fetched
member whose id is not yet known) is forwarded to the scheduler if and
only if its join timestamp is JS-falsy (absent or zero) or at or after
startup minus 5s, and every candidate — forwarded or not — has its id
added to the known set. -/
theorem pollTick_recency_filter
    (now startupTs : Int) (g : Guild) (fetched : List Member) (known : List String)
    (sched : SchedState) (m : Member)
    (hf : m ∈ fetched) (hk : ¬ m.id ∈ known) (hsz : known.length < g.memberCount.getD 0) :
    (m ∈ (pollGuildTick now startupTs g fetched known sched).forwarded
        ↔ (tsTruthy m.joinedTimestamp = false ∨ startupTs - 5000 ≤ m.joinedTimestamp.getD 0)) ∧
    m.id ∈ (pollGuildTick now startupTs g fetched known sched).known := by
  have hmem : m ∈ diffNewMembers known fetched := by
    refine List.mem_filter.mpr ⟨hf, ?_⟩
    simpa using hk
  have hne : (diffNewMembers known fetched).isEmpty = false := by
    simpa using List.ne_nil_of_mem hmem
  have hpred : (realNewPred startupTs m = true)
      ↔ (tsTruthy m.joinedTimestamp = false ∨ startupTs - 5000 ≤ m.joinedTimestamp.getD 0) := by
    simp [realNewPred, Bool.or_eq_true, Bool.not_eq_true']
  rw [pollGuildTick_eq now startupTs g fetched known sched hsz hne]
  by_cases hrn : ((diffNewMembers known fetched).filter (realNewPred startupTs)).isEmpty = true
  · rw [if_pos hrn]
    constructor
    · simp only [List.not_mem_nil, false_iff]
      intro hright
      have : m ∈ (diffNewMembers known fetched).filter (realNewPred startupTs) :=
        List.mem_filter.mpr ⟨hmem, hpred.mpr hright⟩
      rw [List.isEmpty_iff] at hrn
      rw [hrn] at this
      cases this
    · exact mem_markKnown_of_memList known hmem
  · rw [if_neg hrn]
    constructor
    · constructor
      · intro hfor
        exact hpred.mp (List.of_mem_filter hfor)
      · intro hright
        exact List.mem_filter.mpr ⟨hmem, hpred.mpr hright⟩
    · exact mem_markKnown_of_memList known hmem

theorem pollTick_recency_filter_witness :
    sampleMemberB ∈ [sampleMemberB] ∧
    ¬ sampleMemberB.id ∈ [sampleMemberA.id] ∧
    ([sampleMemberA.id] : List String).length < (⟨"g", some 2⟩ : Guild).memberCount.getD 0 ∧
    ((sampleMemberB ∈ (pollGuildTick 700000 700000 ⟨"g", some 2⟩ [sampleMemberB]
          [sampleMemberA.id] schedEmpty).forwarded
        ↔ (tsTruthy sampleMemberB.joinedTimestamp = false ∨
            (700000 : Int) - 5000 ≤ sampleMemberB.joinedTimestamp.getD 0)) ∧
      sampleMemberB.id ∈ (pollGuildTick 700000 700000 ⟨"g", some 2⟩ [sampleMemberB]
          [sampleMemberA.id] schedEmpty).known) :=
  ⟨by decide, by decide, by decide,
    pollTick_recency_filter 700000 700000 ⟨"g", some 2⟩ [sampleMemberB] [sampleMemberA.id]
      schedEmpty sampleMemberB (by decide) (by decide) (by decide)⟩

theorem ungroup_insertGrouped (acc : List (String × List Member)) (g : String) (m : Member) :
    List.Perm (ungroup (insertGrouped acc g m)) (ungroup acc ++ [(g, m)]) := by
  induction acc with
  | nil => simp [insertGrouped, ungroup]
  | cons hd tl ih =>
    obtain ⟨g', ms⟩ := hd
    by_cases h : g' = g
    · subst h
      simp only [insertGrouped, if_pos rfl, ungroup, List.map_append]
      rw [List.append_assoc, List.append_assoc]
      exact List.Perm.append_left _ List.perm_append_comm
    · simp only [insertGrouped, if_neg h, ungroup]
      refine (List.Perm.append_left _ ih).trans ?_
      rw [List.append_assoc]

theorem ungroup_fold (l : List (String × Member)) :
    ∀ acc : List (String × List Member),
      List.Perm (ungroup (l.foldl (fun a p => insertGrouped a p.1 p.2) acc))
        (ungroup acc ++ l) := by
  induction l with
  | nil => intro acc; simp
  | cons p tl ih =>
    intro acc
    simp only [List.foldl_cons]
    refine (ih (insertGrouped acc p.1 p.2)).trans ?_
    refine (List.Perm.append_right tl (ungroup_insertGrouped acc p.1 p.2)).trans ?_
    rw [List.append_assoc]
    simp

theorem ungroup_groupByGuild (l : List (String × Member)) :
    List.Perm (ungroup (groupByGuild l)) l := by
  have h := ungroup_fold l []
  simpa [groupByGuild, ungroup] using h

theorem runSched_go (cs : List (Int × Member × Guild)) :
    ∀ (ln : List (String × Int)) (buf : List (String × Member)) (d0 : Int),
      buf ≠ [] →
      (∀ c ∈ cs.head?, c.1 ≤ d0) →
      allAccepted ln cs = true →
      List.Chain' (fun a b => b.1 ≤ a.1 + notifyDebounceMs) cs →
      (runSched ⟨ln, buf, some d0⟩ cs).2 = [groupByGuild (buf ++ callPairs cs)] ∧
      (runSched ⟨ln, buf, some d0⟩ cs).1.notifyBuffer = [] ∧
      (runSched ⟨ln, buf, some d0⟩ cs).1.debounceDeadline = none := by
  induction cs with
  | nil =>
    intro ln buf d0 hbuf _ _ _
    have hie : buf.isEmpty = false := by simpa using hbuf
    refine ⟨?_, ?_, ?_⟩ <;> simp [runSched, flushNotifyBuffer, hie, callPairs]
  | cons c rest ih =>
    intro ln buf d0 hbuf hfirst hacc hchain
    obtain ⟨t, m, g⟩ := c
    have ht : t ≤ d0 := hfirst (t, m, g) rfl
    have htf : timerFires (some d0) t = false := by
      simp [timerFires]; omega
    have hred : runSched ⟨ln, buf, some d0⟩ ((t, m, g) :: rest)
        = runSched (scheduleNotify t m g ⟨ln, buf, some d0⟩) rest := by
      simp [runSched, htf]
    have hcool : ¬ t - ((ln.lookup m.id).getD 0) < notifyCooldownMs := by
      intro hlt
      rw [allAccepted, if_pos hlt] at hacc
      cases hacc
    have hacc' : allAccepted (lnSet ln m.id t) rest = true := by
      rw [allAccepted, if_neg hcool] at hacc
      exact hacc
    have hacc0 : notifyCooldownMs ≤ t - lastOf ⟨ln, buf, some d0⟩ m.id := by
      show notifyCooldownMs ≤ t - ((ln.lookup m.id).getD 0)
      omega
    have hstep := scheduleNotify_accept (g := g) hacc0
    have hchain' := (List.chain'_cons'.mp hchain).2
    have hfirst' : ∀ c' ∈ rest.head?, c'.1 ≤ t + notifyDebounceMs :=
      (List.chain'_cons'.mp hchain).1
    obtain ⟨h1, h2, h3⟩ := ih (lnSet ln m.id t) (buf ++ [(g.id, m)]) (t + notifyDebounceMs)
      (by simp) hfirst' hacc' hchain'
    have hlist : buf ++ callPairs ((t, m, g) :: rest)
        = (buf ++ [(g.id, m)]) ++ callPairs rest := by
      simp [callPairs]
    rw [hred, hstep]
    dsimp only
    rw [hlist]
    exact ⟨h1, h2, h3⟩

/-- Claim C4: starting with an empty buffer and no timer, a nonempty
time-ordered burst of schedule calls — each one accepted by the cooldown
check in the lastNotified state it encounters (repeated member ids are
allowed when the repeat falls outside the cooldown window), with no two
consecutive calls separated by more than the debounce window — produces
exactly one flush event, that event groups exactly the (guildId, member)
pairs of all the calls by guild, and the run ends with an empty buffer;
the single Option-valued deadline is re-armed by each call rather than
stacking timers. -/
theorem debounce_single_flush (ln0 : List (String × Int))
    (c0 : Int × Member × Guild) (rest : List (Int × Member × Guild))
    (hacc : allAccepted ln0 (c0 :: rest) = true)
    (hchain : List.Chain' (fun a b => b.1 ≤ a.1 + notifyDebounceMs) (c0 :: rest)) :
    (runSched ⟨ln0, [], none⟩ (c0 :: rest)).2 = [groupByGuild (callPairs (c0 :: rest))] ∧
    List.Perm (ungroup (groupByGuild (callPairs (c0 :: rest)))) (callPairs (c0 :: rest)) ∧
    (runSched ⟨ln0, [], none⟩ (c0 :: rest)).1.notifyBuffer = [] ∧
    (runSched ⟨ln0, [], none⟩ (c0 :: rest)).1.debounceDeadline = none := by
  obtain ⟨t, m, g⟩ := c0
  have hred : runSched ⟨ln0, [], none⟩ ((t, m, g) :: rest)
      = runSched (scheduleNotify t m g ⟨ln0, [], none⟩) rest := by
    simp [runSched, timerFires]
  have hcool : ¬ t - ((ln0.lookup m.id).getD 0) < notifyCooldownMs := by
    intro hlt
    rw [allAccepted, if_pos hlt] at hacc
    cases hacc
  have hacc' : allAccepted (lnSet ln0 m.id t) rest = true := by
    rw [allAccepted, if_neg hcool] at hacc
    exact hacc
  have hacc0 : notifyCooldownMs ≤ t - lastOf ⟨ln0, [], none⟩ m.id := by
    show notifyCooldownMs ≤ t - ((ln0.lookup m.id).getD 0)
    omega
  have hstep := scheduleNotify_accept (g := g) hacc0
  have hchain' := (List.chain'_cons'.mp hchain).2
  have hfirst' : ∀ c' ∈ rest.head?, c'.1 ≤ t + notifyDebounceMs :=
    (List.chain'_cons'.mp hchain).1
  obtain ⟨h1, h2, h3⟩ := runSched_go rest (lnSet ln0 m.id t) ([] ++ [(g.id, m)])
    (t + notifyDebounceMs) (by simp) hfirst' hacc' hchain'
  have hlist : ([] : List (String × Member)) ++ callPairs ((t, m, g) :: rest)
      = (([] : List (String × Member)) ++ [(g.id, m)]) ++ callPairs rest := by
    simp [callPairs]
  refine ⟨?_, ungroup_groupByGuild _, ?_, ?_⟩
  · rw [hred, hstep]
    dsimp only
    rw [show callPairs ((t, m, g) :: rest) = ([] : List (String × Member))
      ++ callPairs ((t, m, g) :: rest) from rfl, hlist]
    exact h1
  · rw [hred, hstep]
    dsimp only
    exact h2
  · rw [hred, hstep]
    dsimp only
    exact h3

theorem debounce_single_flush_witness :
    allAccepted [] ((600000, sampleMemberA, sampleGuild)
        :: [(600001, sampleMemberB, sampleGuild)]) = true ∧
    List.Chain' (fun a b => b.1 ≤ a.1 + notifyDebounceMs)
        ((600000, sampleMemberA, sampleGuild) :: [(600001, sampleMemberB, sampleGuild)]) ∧
    ((runSched ⟨[], [], none⟩ ((600000, sampleMemberA, sampleGuild)
          :: [(600001, sampleMemberB, sampleGuild)])).2
        = [groupByGuild (callPairs ((600000, sampleMemberA, sampleGuild)
            :: [(600001, sampleMemberB, sampleGuild)]))] ∧
      List.Perm (ungroup (groupByGuild (callPairs ((600000, sampleMemberA, sampleGuild)
          :: [(600001, sampleMemberB, sampleGuild)]))))
        (callPairs ((600000, sampleMemberA, sampleGuild)
          :: [(600001, sampleMemberB, sampleGuild)])) ∧
      (runSched ⟨[], [], none⟩ ((600000, sampleMemberA, sampleGuild)
          :: [(600001, sampleMemberB, sampleGuild)])).1.notifyBuffer = [] ∧
      (runSched ⟨[], [], none⟩ ((600000, sampleMemberA, sampleGuild)
          :: [(600001, sampleMemberB, sampleGuild)])).1.debounceDeadline = none) :=
  ⟨by decide, by rw [List.chain'_pair]; decide,
    debounce_single_flush [] (600000, sampleMemberA, sampleGuild)
      [(600001, sampleMemberB, sampleGuild)] (by decide)
      (by rw [List.chain'_pair]; decide)⟩

theorem jsDedupAux_map_jstr (ids : List String) :
    ∀ seen : List Json, ids.Nodup →
      (∀ a ∈ ids, ∀ y ∈ seen, jsonBEq (Json.jstr a) y = false) →
      jsDedupAux seen (ids.map Json.jstr) = ids.map Json.jstr := by
  induction ids with
  | nil => intro seen _ _; rfl
  | cons a tl ih =>
    intro seen hn hs
    have hany : (seen.any (fun y => jsonBEq (Json.jstr a) y)) = false := by
      rw [List.any_eq_false]
      intro y hy
      simp [hs a (List.mem_cons_self _ _) y hy]
    have hs' : ∀ b ∈ tl, ∀ y ∈ (Json.jstr a :: seen), jsonBEq (Json.jstr b) y = false := by
      intro b hb y hy
      rcases List.mem_cons.mp hy with h1 | h1
      · subst h1
        have hne : b ≠ a := by
          intro he
          exact (List.nodup_cons.mp hn).1 (he ▸ hb)
        simp [jsonBEq, beq_eq_false_iff_ne.mpr hne]
      · exact hs b (List.mem_cons_of_mem _ hb) y h1
    simp only [List.map_cons, jsDedupAux, hany, Bool.false_eq_true, if_false]
    rw [ih (Json.jstr a :: seen) (List.nodup_cons.mp hn).2 hs']

theorem jsNewSet_jarr_nodup (ids : List String) (h : ids.Nodup) :
    jsNewSet (Json.jarr (ids.map Json.jstr)) = .ok (ids.map Json.jstr) := by
  simp only [jsNewSet, jsSetOfList]
  rw [jsDedupAux_map_jstr ids [] h (by intro a _ y hy; cases hy)]

theorem kmSet_fresh (acc : KnownJson) (k : String) (v : List Json)
    (h : ∀ q ∈ acc, q.1 ≠ k) : kmSet acc k v = acc ++ [(k, v)] := by
  rw [kmSet, if_neg]
  intro hc
  rw [List.any_eq_true] at hc
  obtain ⟨q, hq, hqk⟩ := hc
  exact h q hq (by simpa using hqk)

theorem loadEntries_save (km : List (String × List String)) :
    ∀ acc : KnownJson,
      (km.map Prod.fst).Nodup →
      (∀ p ∈ km, p.2.Nodup) →
      (∀ q ∈ acc, ∀ p ∈ km, q.1 ≠ p.1) →
      loadEntries acc (km.map (fun p => (p.1, Json.jarr (p.2.map Json.jstr))))
        = (acc ++ km.map (fun p => (p.1, p.2.map Json.jstr)), true) := by
  induction km with
  | nil => intro acc _ _ _; simp [loadEntries]
  | cons p tl ih =>
    intro acc hkeys hvals hdisj
    obtain ⟨g, ids⟩ := p
    have hset : jsNewSet (Json.jarr (ids.map Json.jstr)) = .ok (ids.map Json.jstr) :=
      jsNewSet_jarr_nodup ids (hvals (g, ids) (List.mem_cons_self _ _))
    have hfresh : kmSet acc g (ids.map Json.jstr) = acc ++ [(g, ids.map Json.jstr)] :=
      kmSet_fresh acc g _ (fun q hq => hdisj q hq (g, ids) (List.mem_cons_self _ _))
    have hkeys' : (tl.map Prod.fst).Nodup := (List.nodup_cons.mp hkeys).2
    have hgfresh : g ∉ tl.map Prod.fst := (List.nodup_cons.mp hkeys).1
    have hvals' : ∀ p ∈ tl, p.2.Nodup := fun p hp => hvals p (List.mem_cons_of_mem _ hp)
    have hdisj' : ∀ q ∈ acc ++ [(g, ids.map Json.jstr)], ∀ p ∈ tl, q.1 ≠ p.1 := by
      intro q hq p' hp'
      rcases List.mem_append.mp hq with h1 | h1
      · exact hdisj q h1 p' (List.mem_cons_of_mem _ hp')
      · have hq1 : q = (g, ids.map Json.jstr) := by simpa using h1
        subst hq1
        intro he
        have hg : g = p'.1 := he
        exact hgfresh (hg ▸ List.mem_map_of_mem Prod.fst hp')
    simp only [List.map_cons, loadEntries, hset, hfresh]
    rw [ih (acc ++ [(g, ids.map Json.jstr)]) hkeys' hvals' hdisj']
    simp

theorem lookup_map_jstr (km : List (String × List String)) (g : String) :
    List.lookup g (km.map (fun p => (p.1, p.2.map Json.jstr)))
      = (List.lookup g km).map (fun l => l.map Json.jstr) := by
  induction km with
  | nil => rfl
  | cons p tl ih =>
    obtain ⟨a, b⟩ := p
    by_cases h : g = a
    · simp [List.lookup, h]
    · have hb : (g == a) = false := beq_eq_false_iff_ne.mpr h
      simp [List.lookup, hb, ih]

/-- Claim C5: dumping a KnownMembers state (with its JS-object invariants:
distinct guild keys, duplicate-free member sets) through savePersistence
and reading it back through loadPersistence into a fresh map reproduces
the same guild-to-member-set mapping — each guild's persisted list loads
back to exactly its original ids (as JSON strings). -/
theorem save_load_roundtrip (km : List (String × List String))
    (hkeys : (km.map Prod.fst).Nodup)
    (hvals : ∀ p ∈ km, p.2.Nodup) :
    (loadPersistence [] (ReadOutcome.parsed (saveDump km))).2 = true ∧
    ∀ g : String,
      ((loadPersistence [] (ReadOutcome.parsed (saveDump km))).1.lookup g).getD []
        = ((km.lookup g).getD []).map Json.jstr := by
  have h := loadEntries_save km [] hkeys hvals (by intro q hq; cases hq)
  have hload : loadPersistence [] (ReadOutcome.parsed (saveDump km))
      = (km.map (fun p => (p.1, p.2.map Json.jstr)), true) := by
    simp only [loadPersistence, saveDump, jsOwnEntries]
    rw [h]
    simp
  rw [hload]
  refine ⟨rfl, ?_⟩
  intro g
  show ((km.map (fun p => (p.1, p.2.map Json.jstr))).lookup g).getD []
      = ((km.lookup g).getD []).map Json.jstr
  rw [lookup_map_jstr]
  cases List.lookup g km <;> simp

theorem save_load_roundtrip_witness :
    (([("g1", ["a", "b"])] : List (String × List String)).map Prod.fst).Nodup ∧
    (∀ p ∈ ([("g1", ["a", "b"])] : List (String × List String)), p.2.Nodup) ∧
    ((loadPersistence [] (ReadOutcome.parsed
        (saveDump [("g1", ["a", "b"])]))).2 = true ∧
      ∀ g : String,
        ((loadPersistence [] (ReadOutcome.parsed
            (saveDump [("g1", ["a", "b"])]))).1.lookup g).getD []
          = ((([("g1", ["a", "b"])] : List (String × List String)).lookup g).getD
              []).map Json.jstr) :=
  ⟨by decide, by decide,
    save_load_roundtrip [("g1", ["a", "b"])] (by decide) (by decide)⟩

end JoinLogger
